import Mathlib

/-!
Verification of the ebook-pdf-api service (src/main.py) against its
natural-language specification. The single source file is a FastAPI endpoint
that turns a book request (title, subtitle, author, page size, chapters) into
a PDF via the platypus layout engine. Python strings are modelled as Lean
`String` / `List Char`; each Python string primitive the source uses
(`str.strip`, `str.lower`, `str.upper`, `str.replace`, `str.split(sep, 1)`,
`in`, `str.startswith`) is embedded below, restricted where noted to the
code points the service actually manipulates.
-/

namespace EbookPdf

/-- Whitespace as Python `str.strip()` removes it (the ASCII whitespace
characters; the tokens and titles the service strips are ASCII-spaced). -/
def pySpace (c : Char) : Bool :=
  c = ' ' || c = '\t' || c = '\n' || c = '\r' || c = '\x0b' || c = '\x0c'

/-- Embeds Python `str.strip()`: drop whitespace from both ends. -/
def pyStripList (s : List Char) : List Char :=
  ((s.dropWhile pySpace).reverse.dropWhile pySpace).reverse

/-- Embeds Python `str.strip()` at the `String` level. -/
def pyStrip (s : String) : String :=
  ⟨pyStripList s.data⟩

/-- Embeds Python `str.lower()` on the code points `strip_capitulo_prefix`
inspects: ASCII letters and the accented capital of "Capítulo". -/
def pyLowerChar (c : Char) : Char :=
  if c = 'Í' then 'í' else c.toLower

/-- Embeds Python `str.lower()` (see `pyLowerChar`). -/
def pyLower (s : List Char) : List Char :=
  s.map pyLowerChar

/-- Embeds Python `str.upper()` on one character (ASCII; the only values
`get_page_size` compares against are ASCII). -/
def pyUpperChar (c : Char) : Char :=
  if 'a' ≤ c && c ≤ 'z' then Char.ofNat (c.toNat - 32) else c

/-- Embeds Python `str.upper()` (see `pyUpperChar`). -/
def pyUpper (s : String) : String :=
  ⟨s.data.map pyUpperChar⟩

/-- Embeds Python `str.startswith(pre)`. -/
def pyStartsWith (s pre : String) : Bool :=
  pre.data.isPrefixOf s.data

/-- Embeds Python `s.split(sep, 1)` for a one-character separator, together
with `sep in s`: `none` when `sep` does not occur in `s`, otherwise the text
left and right of the first occurrence. -/
def splitFirst (sep : Char) : List Char → Option (List Char × List Char)
  | [] => none
  | c :: cs =>
    if c = sep then some ([], cs)
    else
      match splitFirst sep cs with
      | none => none
      | some (l, r) => some (c :: l, r)

/-- Embeds Python `str.replace(old, new)` for a one-character pattern `old`
(the only patterns `safe_text_to_paragraph_html` replaces). -/
def replaceChar (c : Char) (rep : List Char) : List Char → List Char
  | [] => []
  | x :: xs => (if x = c then rep else [x]) ++ replaceChar c rep xs

/-- Embeds `authorization.replace("Bearer ", "")` (src/main.py line 116):
every non-overlapping occurrence of the seven characters `Bearer ` is
deleted, scanning left to right as Python `str.replace` does. -/
def removeBearer : List Char → List Char
  | 'B' :: 'e' :: 'a' :: 'r' :: 'e' :: 'r' :: ' ' :: rest => removeBearer rest
  | c :: cs => c :: removeBearer cs
  | [] => []

/-- A chapter of the request body (src/main.py lines 26-28). -/
structure Chapter where
  title : String
  content : String
deriving DecidableEq, Repr

/-- The validated request model `EbookRequest` (src/main.py lines 31-36). -/
structure EbookRequest where
  title : String
  subtitle : Option String := none
  author : Option String := none
  page_size : Option String := some "A4"
  chapters : List Chapter
deriving DecidableEq, Repr

/-- A raw chapter as submitted: each field may be absent (or null). -/
structure RawChapter where
  title : Option String := none
  content : Option String := none
deriving DecidableEq, Repr

/-- A raw request body as submitted. `page_size = none` means the field is
absent (the declared default `"A4"` applies); `some none` is an explicit
null. -/
structure RawRequest where
  title : Option String := none
  subtitle : Option String := none
  author : Option String := none
  page_size : Option (Option String) := none
  chapters : Option (List RawChapter) := none
deriving DecidableEq, Repr

/-- Pydantic validation of one `Chapter`: both fields are required strings. -/
def validateChapter (c : RawChapter) : Option Chapter :=
  match c.title, c.content with
  | some t, some b => some ⟨t, b⟩
  | _, _ => none

/-- Embeds the FastAPI/pydantic validation of the request model declared in
src/main.py lines 26-36: `title` and `chapters` are required (absent or null
is rejected), every chapter needs `title` and `content`, `subtitle` and
`author` default to null, `page_size` defaults to `"A4"` and accepts any
string whatsoever, and an empty `chapters` list is accepted. -/
def validateRequest (r : RawRequest) : Except String EbookRequest :=
  match r.title with
  | none => Except.error "title: field required"
  | some t =>
    match r.chapters with
    | none => Except.error "chapters: field required"
    | some raw =>
      match raw.mapM validateChapter with
      | none => Except.error "chapters: invalid chapter"
      | some chs =>
        Except.ok
          { title := t
            subtitle := r.subtitle
            author := r.author
            page_size := r.page_size.getD (some "A4")
            chapters := chs }

/-- The two page dimensions the source imports (src/main.py line 10). -/
inductive PageSize where
  | A4
  | letter
deriving DecidableEq, Repr

/-- Embeds `get_page_size` (src/main.py lines 39-41):
`A4 if (size or "A4").upper() == "A4" else letter`. -/
def get_page_size (size : Option String) : PageSize :=
  let s :=
    match size with
    | none => "A4"
    | some s => if s = "" then "A4" else s
  if pyUpper s = "A4" then PageSize.A4 else PageSize.letter

/-- The chain of replacements of `safe_text_to_paragraph_html` at the
`List Char` level: escape `&`, `<`, `>` in that order, then turn newlines
into `<br/>`. -/
def safeChars (l : List Char) : List Char :=
  replaceChar '\n' "<br/>".data
    (replaceChar '>' "&gt;".data
      (replaceChar '<' "&lt;".data
        (replaceChar '&' "&amp;".data l)))

/-- Embeds `safe_text_to_paragraph_html` (src/main.py lines 43-50). -/
def safe_text_to_paragraph_html (text : String) : String :=
  ⟨safeChars text.data⟩

/-- The per-character effect of `safe_text_to_paragraph_html` (proved equal
to the chain of replacements in `safeChars_cons`). -/
def escChar (c : Char) : List Char :=
  if c = '&' then "&amp;".data
  else if c = '<' then "&lt;".data
  else if c = '>' then "&gt;".data
  else if c = '\n' then "<br/>".data
  else [c]

/-- Modelled from the spec: the layout engine's reading of paragraph markup
(the engine itself is outside src/). Ampersand entities denote the literal
characters `&`, `<`, `>`, a `<br/>` tag denotes a line break, every other
character stands for itself. -/
def renderChars : List Char → List Char
  | [] => []
  | '&' :: 'a' :: 'm' :: 'p' :: ';' :: rest => '&' :: renderChars rest
  | '&' :: 'l' :: 't' :: ';' :: rest => '<' :: renderChars rest
  | '&' :: 'g' :: 't' :: ';' :: rest => '>' :: renderChars rest
  | '<' :: 'b' :: 'r' :: '/' :: '>' :: rest => '\n' :: renderChars rest
  | c :: rest => c :: renderChars rest

/-- Left part of the separator split: Python
`left.lower().startswith(("capítulo", "capitulo"))` (src/main.py line 66). -/
def capituloLeft (left : List Char) : Bool :=
  "capítulo".data.isPrefixOf (pyLower left) || "capitulo".data.isPrefixOf (pyLower left)

/-- One iteration of the separator loop (src/main.py lines 63-67): when `sep`
occurs in `t` and the left part passes `capituloLeft`, the stripped right
part; otherwise `none` (the loop moves on to the next separator). -/
def trySep (sep : Char) (t : List Char) : Option (List Char) :=
  match splitFirst sep t with
  | none => none
  | some (left, right) =>
    if capituloLeft left then some (pyStripList right) else none

/-- The separator loop itself: `for sep in [":", "-", "–", "—"]`. -/
def trySeps : List Char → List Char → Option (List Char)
  | [], _ => none
  | sep :: more, t =>
    match trySep sep t with
    | some r => some r
    | none => trySeps more t

/-- The body of `strip_capitulo_prefix` on the already-stripped title `t`
(src/main.py lines 60-71): when `t.lower()` starts with `"capítulo "` or
`"capitulo "`, try the separators in order, and fall back to dropping the
first space-delimited word; otherwise return `t` unchanged. -/
def stripCore (t : List Char) : String :=
  if "capítulo ".data.isPrefixOf (pyLower t) || "capitulo ".data.isPrefixOf (pyLower t) then
    match trySeps [':', '-', '–', '—'] t with
    | some r => ⟨r⟩
    | none =>
      match splitFirst ' ' t with
      | some (_, rest) => ⟨pyStripList rest⟩
      | none => ⟨t⟩
  else ⟨t⟩

/-- Embeds `strip_capitulo_prefix` (src/main.py lines 53-71). -/
def strip_capitulo_prefix (title : String) : String :=
  if title = "" then ""
  else stripCore (pyStripList title.data)

/-- The prefix-stripping rule as the specification words it (spec §4.2 step
3), written for comparison with `strip_capitulo_prefix`: a title beginning
with the localized chapter word (case-insensitive, optionally followed by a
separator) is stripped by splitting at the first — leftmost — recognized
separator when one is present, otherwise by dropping exactly the first
whitespace-delimited token. -/
def splitFirstAny (seps : List Char) : List Char → Option (List Char × List Char)
  | [] => none
  | c :: cs =>
    if seps.contains c then some ([], cs)
    else
      match splitFirstAny seps cs with
      | none => none
      | some (l, r) => some (c :: l, r)

/-- The spec-worded stripping rule itself (see `splitFirstAny`). -/
def stripTitleSpec (title : String) : String :=
  let t := pyStripList title.data
  let lower := pyLower t
  if "capítulo".data.isPrefixOf lower || "capitulo".data.isPrefixOf lower then
    match splitFirstAny [':', '-', '–', '—'] t with
    | some (_, right) => ⟨pyStripList right⟩
    | none =>
      match splitFirst ' ' t with
      | some (_, rest) => ⟨pyStripList rest⟩
      | none => ⟨t⟩
  else ⟨t⟩

/-- The outcome of the optional bearer-token check. -/
inductive AuthResult where
  | ok
  | unauthorized401
  | forbidden403
deriving DecidableEq, Repr

/-- Embeds the auth check of `generate_ebook_pdf` (src/main.py lines
113-118). `apiKey` is the configured server secret `API_KEY` (already
stripped, line 20; empty when unset), `authorization` the request's
Authorization header (`""` when the header is absent, line 111). -/
def checkAuth (apiKey authorization : String) : AuthResult :=
  if apiKey ≠ "" then
    if !(pyStartsWith authorization "Bearer ") then AuthResult.unauthorized401
    else
      let token := pyStrip ⟨removeBearer authorization.data⟩
      if token ≠ apiKey then AuthResult.forbidden403 else AuthResult.ok
  else AuthResult.ok

/-- `HexColor("#0B1F3A").hexval()` — the cover band's background. -/
def PRIMARY_HEX : String := "0x0b1f3a"

/-- `HexColor("#6B7280").hexval()` — the muted caption colour. -/
def MUTED_HEX : String := "0x6b7280"

/-- `HexColor("#CBD5E1").hexval()` — the rule-line colour. -/
def LINE_HEX : String := "0xcbd5e1"

/-- One layout instruction of the element stream handed to the engine.
Spacer heights are kept in millimetres (the source writes them in cm). -/
inductive Flowable where
  | spacer (heightMm : Nat)
  | paragraph (text : String) (style : String)
  /-- A chapter-heading `Paragraph` with `_is_toc_heading`, `_toc_text`,
  `_toc_level` and `_bookmark_name` set (src/main.py lines 267-271). -/
  | tocHeadingPara (text : String) (tocText : String) (tocLevel : Nat)
      (bookmarkName : String) (style : String)
  | tableOfContents
  | pageBreak
deriving DecidableEq, Repr

/-- Embeds the `band_html` f-string of the cover (src/main.py lines 220-225);
`hexval()` renders the lowercase `0x......` form of a colour. -/
def band_html (title subtitle_line : String) : String :=
  "\n    <para backColor=\"" ++ PRIMARY_HEX ++
    "\" leftIndent=\"12\" rightIndent=\"12\" spaceBefore=\"10\" spaceAfter=\"10\">\n      <font color=\"white\" size=\"22\"><b>" ++
    pyStrip title ++ "</b></font><br/>\n      <font color=\"" ++ LINE_HEX ++
    "\" size=\"12\">" ++ subtitle_line ++ "</font>\n    </para>\n    "

/-- The cover elements (src/main.py lines 216-236): spacer, coloured band
with title and subtitle, spacer, the author line when `payload.author` is
truthy, two closing lines and an unconditional page break. -/
def coverBlock (p : EbookRequest) : List Flowable :=
  [Flowable.spacer 40,
   Flowable.paragraph (band_html p.title (p.subtitle.getD "")) "CoverBand",
   Flowable.spacer 10] ++
  (match p.author with
   | some a =>
     if a = "" then []
     else
       [Flowable.paragraph
         ("<font color='" ++ MUTED_HEX ++ "' size='11'>Autor: " ++ a ++ "</font>")
         "Normal"]
   | none => []) ++
  [Flowable.spacer 6,
   Flowable.paragraph
     ("<font color='" ++ LINE_HEX ++ "' size='10'>Versão editorial • PDF profissional</font>")
     "Normal",
   Flowable.pageBreak]

/-- The TOC section (src/main.py lines 241-257): the "Sumário" header, a
spacer, the `TableOfContents` placeholder and an unconditional page break. -/
def tocBlock : List Flowable :=
  [Flowable.paragraph "Sumário" "TOCHeader",
   Flowable.spacer 4,
   Flowable.tableOfContents,
   Flowable.pageBreak]

/-- The heading text of chapter `i` (1-indexed), src/main.py lines 262-264:
`f"Capítulo {i}: {clean_title}"`. -/
def chapterHeadingText (i : Nat) (ch : Chapter) : String :=
  "Capítulo " ++ toString i ++ ": " ++ strip_capitulo_prefix ch.title

/-- One chapter's elements (src/main.py lines 262-277): the marked heading,
a spacer, the escaped body and an unconditional page break. -/
def chapterBlock (i : Nat) (ch : Chapter) : List Flowable :=
  [Flowable.tocHeadingPara (chapterHeadingText i ch) (chapterHeadingText i ch) 0
     ("ch_" ++ toString i) "ChapterTitle",
   Flowable.spacer 3,
   Flowable.paragraph (safe_text_to_paragraph_html ch.content) "BodyTextPremium",
   Flowable.pageBreak]

/-- Embeds the element-stream construction of `generate_ebook_pdf`
(src/main.py lines 211-277): cover, TOC section, then the chapters
enumerated from 1 in submission order. -/
def buildElements (p : EbookRequest) : List Flowable :=
  coverBlock p ++ tocBlock ++
    (List.enumFrom 1 p.chapters).flatMap (fun ic => chapterBlock ic.1 ic.2)

/-- Whether a flowable is a chapter heading carrying TOC marks (the ones
`afterFlowable` notifies the TOC about, src/main.py lines 85-104). -/
def isChapterHeading : Flowable → Bool
  | Flowable.tocHeadingPara _ _ _ _ _ => true
  | _ => false

/-- The `(text, level, bookmark)` entries of the stream's marked headings, in
stream order — what `afterFlowable` would notify the TOC with. -/
def headingEntries : List Flowable → List (String × Nat × String)
  | [] => []
  | Flowable.tocHeadingPara _ tocText lvl key _ :: rest =>
      (tocText, lvl, key) :: headingEntries rest
  | _ :: rest => headingEntries rest

/-- Embeds the header-title truncation of `add_header_footer` (src/main.py
lines 292-294): the stripped title, cut to 70 characters with a `…` appended
when it was longer. -/
def headerTitle (title : String) : String :=
  let t := pyStrip title
  if t.length > 70 then ⟨t.data.take 70⟩ ++ "…" else t

/-- Embeds the footer caption of `add_header_footer` (src/main.py line 302):
`f"Página {canvas.getPageNumber()}"`. -/
def footerCaption (pageNumber : Nat) : String :=
  "Página " ++ toString pageNumber

end EbookPdf

namespace EbookPdf

/-! Helper lemmas about the embedded Python string primitives and the
element stream. -/

theorem replaceChar_append (c : Char) (rep : List Char) (xs ys : List Char) :
    replaceChar c rep (xs ++ ys) = replaceChar c rep xs ++ replaceChar c rep ys := by
  induction xs with
  | nil => simp [replaceChar]
  | cons x xs ih => simp [replaceChar, ih]

theorem safeChars_cons (x : Char) (l : List Char) :
    safeChars (x :: l) = escChar x ++ safeChars l := by
  have step :
      safeChars (x :: l) =
        replaceChar '\n' "<br/>".data
          (replaceChar '>' "&gt;".data
            (replaceChar '<' "&lt;".data
              (if x = '&' then "&amp;".data else [x]))) ++ safeChars l := by
    unfold safeChars
    rw [show replaceChar '&' "&amp;".data (x :: l) =
          (if x = '&' then "&amp;".data else [x]) ++ replaceChar '&' "&amp;".data l from rfl,
        replaceChar_append, replaceChar_append, replaceChar_append]
  rw [step]
  by_cases h1 : x = '&'
  · subst h1; rw [if_pos rfl]; rfl
  · rw [if_neg h1]
    by_cases h2 : x = '<'
    · subst h2; rfl
    · by_cases h3 : x = '>'
      · subst h3; rfl
      · by_cases h4 : x = '\n'
        · subst h4; rfl
        · simp [replaceChar, escChar, h1, h2, h3, h4]

theorem renderChars_escChar (x : Char) (l : List Char) :
    renderChars (escChar x ++ l) = x :: renderChars l := by
  by_cases h1 : x = '&'
  · subst h1; rfl
  · by_cases h2 : x = '<'
    · subst h2; rfl
    · by_cases h3 : x = '>'
      · subst h3; rfl
      · by_cases h4 : x = '\n'
        · subst h4; rfl
        · have he : escChar x = [x] := by simp [escChar, h1, h2, h3, h4]
          rw [he]
          show renderChars (x :: l) = x :: renderChars l
          rw [renderChars.eq_def]
          split <;> simp_all

theorem renderChars_safeChars (l : List Char) : renderChars (safeChars l) = l := by
  induction l with
  | nil => rfl
  | cons x xs ih => rw [safeChars_cons, renderChars_escChar, ih]

theorem startsWith_append_self (pre rest : String) :
    pyStartsWith (pre ++ rest) pre = true := by
  unfold pyStartsWith
  rw [String.data_append]
  simp [List.prefix_append]

theorem dropWhile_eq_self_of_head (l : List Char)
    (h : ∀ c, l.head? = some c → pySpace c = false) :
    l.dropWhile pySpace = l := by
  cases l with
  | nil => rfl
  | cons c cs => simp [List.dropWhile_cons, h c rfl]

theorem pyStripList_eq_self (l : List Char)
    (hh : ∀ c, l.head? = some c → pySpace c = false)
    (hl : ∀ c, l.getLast? = some c → pySpace c = false) :
    pyStripList l = l := by
  unfold pyStripList
  rw [dropWhile_eq_self_of_head l hh,
    dropWhile_eq_self_of_head l.reverse (fun c hc => hl c (by rwa [List.head?_reverse] at hc)),
    List.reverse_reverse]

theorem pyStripList_all_nonspace (l : List Char) (h : ∀ c ∈ l, pySpace c = false) :
    pyStripList l = l :=
  pyStripList_eq_self l
    (fun c hc => h c (List.mem_of_mem_head? hc))
    (fun c hc => h c (List.mem_of_mem_getLast? hc))

theorem pyStripList_space_cons (b : List Char) (hb : ∀ c ∈ b, pySpace c = false) :
    pyStripList (' ' :: b) = b := by
  unfold pyStripList
  rw [List.dropWhile_cons, if_pos (show pySpace ' ' = true from rfl)]
  have h1 : b.dropWhile pySpace = b :=
    dropWhile_eq_self_of_head b (fun c hc => hb c (List.mem_of_mem_head? hc))
  rw [h1,
    dropWhile_eq_self_of_head b.reverse
      (fun c hc => hb c (List.mem_of_mem_getLast? (by rwa [List.head?_reverse] at hc))),
    List.reverse_reverse]

theorem splitFirst_none_of_forall (sep : Char) (l : List Char) (h : ∀ c ∈ l, c ≠ sep) :
    splitFirst sep l = none := by
  induction l with
  | nil => rfl
  | cons c cs ih =>
    rw [splitFirst, if_neg (h c (List.mem_cons_self c cs)),
      ih (fun x hx => h x (List.mem_cons_of_mem c hx))]

theorem headingEntries_append (a b : List Flowable) :
    headingEntries (a ++ b) = headingEntries a ++ headingEntries b := by
  induction a with
  | nil => rfl
  | cons f rest ih => cases f <;> simp [headingEntries, ih]

theorem coverBlock_no_heading (p : EbookRequest) (f : Flowable) (hf : f ∈ coverBlock p) :
    isChapterHeading f = false ∧ f ≠ Flowable.tableOfContents := by
  rcases hA : p.author with _ | a
  · simp [coverBlock, hA] at hf
    rcases hf with rfl | rfl | rfl | rfl | rfl | rfl <;> simp [isChapterHeading]
  · by_cases h : a = "" <;> simp [coverBlock, hA, h] at hf
    · rcases hf with rfl | rfl | rfl | rfl | rfl | rfl <;> simp [isChapterHeading]
    · rcases hf with rfl | rfl | rfl | rfl | rfl | rfl | rfl <;> simp [isChapterHeading]

theorem coverBlock_getLast (p : EbookRequest) :
    (coverBlock p).getLast? = some Flowable.pageBreak := by
  rcases hA : p.author with _ | a
  · simp [coverBlock, hA]
  · by_cases h : a = "" <;> simp [coverBlock, hA, h]

theorem headingEntries_coverBlock (p : EbookRequest) : headingEntries (coverBlock p) = [] := by
  rcases hA : p.author with _ | a
  · simp [coverBlock, hA, headingEntries]
  · by_cases h : a = "" <;> simp [coverBlock, hA, h, headingEntries]

theorem headingEntries_chapters (chs : List Chapter) (k : Nat) :
    headingEntries ((List.enumFrom k chs).flatMap (fun ic => chapterBlock ic.1 ic.2)) =
      (List.enumFrom k chs).map
        (fun ic => (chapterHeadingText ic.1 ic.2, 0, "ch_" ++ toString ic.1)) := by
  induction chs generalizing k with
  | nil => rfl
  | cons c rest ih =>
    rw [show List.enumFrom k (c :: rest) = (k, c) :: List.enumFrom (k + 1) rest from rfl,
      List.flatMap_cons, headingEntries_append, ih]
    rfl

theorem headingEntries_buildElements (p : EbookRequest) :
    headingEntries (buildElements p) =
      (List.enumFrom 1 p.chapters).map
        (fun ic => (chapterHeadingText ic.1 ic.2, 0, "ch_" ++ toString ic.1)) := by
  unfold buildElements
  rw [headingEntries_append, headingEntries_append, headingEntries_coverBlock,
    headingEntries_chapters]
  rfl

theorem chapters_getElem (chs : List Chapter) (k i : Nat) (ch : Chapter)
    (h : chs[i]? = some ch) :
    ((List.enumFrom k chs).flatMap (fun ic => chapterBlock ic.1 ic.2))[4 * i]? =
        some (Flowable.tocHeadingPara (chapterHeadingText (k + i) ch)
          (chapterHeadingText (k + i) ch) 0 ("ch_" ++ toString (k + i)) "ChapterTitle") ∧
    ((List.enumFrom k chs).flatMap (fun ic => chapterBlock ic.1 ic.2))[4 * i + 3]? =
        some Flowable.pageBreak := by
  induction chs generalizing k i with
  | nil => simp at h
  | cons c rest ih =>
    cases i with
    | zero =>
      simp only [List.getElem?_cons_zero, Option.some.injEq] at h
      subst h
      simp [List.enumFrom, chapterBlock]
    | succ j =>
      have h2 : rest[j]? = some ch := by simpa using h
      have hrec := ih (k + 1) j h2
      have hlen : (chapterBlock k c).length = 4 := by rfl
      constructor
      · rw [show List.enumFrom k (c :: rest) = (k, c) :: List.enumFrom (k + 1) rest from rfl]
        rw [List.flatMap_cons,
          List.getElem?_append_right (by omega : (chapterBlock k c).length ≤ 4 * (j + 1))]
        rw [hlen, show 4 * (j + 1) - 4 = 4 * j from by omega,
          show k + (j + 1) = k + 1 + j from by omega]
        exact hrec.1
      · rw [show List.enumFrom k (c :: rest) = (k, c) :: List.enumFrom (k + 1) rest from rfl]
        rw [List.flatMap_cons,
          List.getElem?_append_right (by omega : (chapterBlock k c).length ≤ 4 * (j + 1) + 3)]
        rw [hlen, show 4 * (j + 1) + 3 - 4 = 4 * j + 3 from by omega]
        exact hrec.2

end EbookPdf

namespace EbookPdf

/-! Claim theorems. -/

/-- C1: in the constructed element stream the `TableOfContents` placeholder
stands strictly before every chapter-heading anchor, so in the single
forward pass that `BaseDocTemplate.build` performs, the TOC is laid out
before any `TOCEntry` notification from `afterFlowable` can reach it — the
deferred-resolution protocol the claim relies on never converges in the code
as written (the source also passes `build` the keyword `onLaterPages`, which
`BaseDocTemplate.build` does not accept). -/
theorem C1_toc_precedes_all_headings (p : EbookRequest) :
    ∃ pre post : List Flowable,
      buildElements p = pre ++ Flowable.tableOfContents :: post ∧
      ∀ f ∈ pre, isChapterHeading f = false := by
  refine ⟨coverBlock p ++ [Flowable.paragraph "Sumário" "TOCHeader", Flowable.spacer 4],
    Flowable.pageBreak ::
      (List.enumFrom 1 p.chapters).flatMap (fun ic => chapterBlock ic.1 ic.2), ?_, ?_⟩
  · unfold buildElements tocBlock
    simp
  · intro f hf
    rcases List.mem_append.mp hf with h | h
    · exact (coverBlock_no_heading p f h).1
    · simp at h
      rcases h with rfl | rfl <;> simp [isChapterHeading]

/-- C2 (counterexample): a request whose chapters list is empty and whose
page-size token is not a valid size name passes validation, where the claim
says both must fail with a ValidationError. -/
theorem C2_empty_chapters_and_bad_token_accepted :
    validateRequest { title := some "T", page_size := some (some "BOGUS"), chapters := some [] } =
      Except.ok { title := "T", page_size := some "BOGUS", chapters := [] } := by
  rfl

/-- C2 (amended): validation of the raw body yields a well-typed request or
an error before composition; a missing title fails, but an empty chapters
list is accepted and any string whatsoever is accepted as the page-size
token. -/
theorem C2_validation_behavior :
    (∀ r : RawRequest, r.title = none →
        validateRequest r = Except.error "title: field required") ∧
    (∀ t : String,
      validateRequest { title := some t, chapters := some [] } =
        Except.ok { title := t, chapters := [] }) ∧
    (∀ t ps : String,
      validateRequest { title := some t, page_size := some (some ps), chapters := some [] } =
        Except.ok { title := t, page_size := some ps, chapters := [] }) := by
  refine ⟨fun r h => ?_, fun t => rfl, fun t ps => rfl⟩
  simp only [validateRequest]
  rw [h]

/-- C3 (counterexample): the page-size token "FOLIO" — neither "LETTER" nor
"A4" — yields the Letter dimensions, where the claim says every value other
than "LETTER" yields A4. -/
theorem C3_non_letter_token_yields_letter :
    get_page_size (some "FOLIO") = PageSize.letter ∧ PageSize.letter ≠ PageSize.A4 := by
  decide

/-- C3 (amended): "LETTER" yields Letter and an omitted size yields A4, but
the actual rule is inverted from the claim: a present, non-empty token
yields A4 exactly when it upper-cases to "A4", and every other token —
valid or not — yields Letter. -/
theorem C3_page_size_mapping :
    get_page_size (some "LETTER") = PageSize.letter ∧
    get_page_size none = PageSize.A4 ∧
    (∀ s : String, get_page_size (some s) = PageSize.A4 ↔ (s = "" ∨ pyUpper s = "A4")) := by
  refine ⟨by decide, by decide, fun s => ?_⟩
  by_cases h : s = ""
  · subst h; decide
  · by_cases h2 : pyUpper s = "A4" <;> simp [get_page_size, h, h2]

/-- C4: the chapter at 0-based position `i` of the submitted list is the
`i`-th heading anchor of the element stream, and its heading text carries
the canonical prefix for position `i + 1` (1-indexed submission order)
applied to the stripped title — never a number taken from the submitted
title; in particular a submitted title "Capítulo 3: The Storm" at position
1 renders as "Capítulo 1: The Storm". -/
theorem C4_positional_heading_numbering :
    (∀ (p : EbookRequest) (i : Nat) (ch : Chapter), p.chapters[i]? = some ch →
        (headingEntries (buildElements p))[i]? =
          some (chapterHeadingText (i + 1) ch, 0, "ch_" ++ toString (i + 1))) ∧
    chapterHeadingText 1 ⟨"Capítulo 3: The Storm", "body"⟩ = "Capítulo 1: The Storm" := by
  refine ⟨fun p i ch h => ?_, by decide⟩
  rw [headingEntries_buildElements, List.getElem?_map, List.getElem?_enumFrom, h]
  simp [Nat.add_comm]

/-- C5 (counterexample): the title "Capítulo: The Storm" begins with the
chapter word immediately followed by a recognized separator, which the claim
says is stripped; the code requires a space after the word and returns the
title unchanged, while the rule as the specification words it
(`stripTitleSpec`) yields "The Storm". -/
theorem C5_no_space_prefix_not_stripped :
    strip_capitulo_prefix "Capítulo: The Storm" = "Capítulo: The Storm" ∧
    stripTitleSpec "Capítulo: The Storm" = "The Storm" ∧
    strip_capitulo_prefix "Capítulo: The Storm" ≠ stripTitleSpec "Capítulo: The Storm" := by
  decide

/-- C5 (amended): a title is stripped only when its first word is
"capítulo"/"capitulo" (case-insensitive) followed by a space; the
separators are then tried in the fixed order colon, hyphen, en-dash,
em-dash — the title is split at the leftmost occurrence of the first
separator present anywhere in it (so a colon wins over an earlier hyphen),
and the trimmed right part is kept; with no separator present, exactly the
first space-delimited word is dropped; a title whose chapter word is
followed directly by a separator, with no space, is returned unchanged. -/
theorem C5_prefix_strip_behavior :
    (∀ body : String,
      (∀ c ∈ body.data, pySpace c = false ∧ c ≠ ':' ∧ c ≠ '-' ∧ c ≠ '–' ∧ c ≠ '—') →
      body ≠ "" →
      strip_capitulo_prefix ("Capítulo 7: " ++ body) = body ∧
      strip_capitulo_prefix ("CAPITULO " ++ body) = body ∧
      strip_capitulo_prefix ("Capítulo: " ++ body) = "Capítulo: " ++ body) ∧
    strip_capitulo_prefix "Capitulo um - dois: tres" = "tres" := by
  refine ⟨fun body h h2 => ?_, by decide⟩
  have hbody : body.data ≠ [] := fun hc => h2 (String.ext (by rw [hc]))
  have hlast : ∀ c, body.data.getLast? = some c → pySpace c = false :=
    fun c hc => (h c (List.mem_of_mem_getLast? hc)).1
  refine ⟨?_, ?_, ?_⟩
  · have hne : ("Capítulo 7: " ++ body) ≠ "" := by
      intro hcon
      have hd := congrArg String.data hcon
      rw [String.data_append] at hd
      exact List.cons_ne_nil _ _ hd
    have hstrip : pyStripList (("Capítulo 7: " ++ body)).data = ("Capítulo 7: " ++ body).data := by
      apply pyStripList_eq_self
      · intro c hc
        rw [String.data_append,
          show ("Capítulo 7: ".data ++ body.data).head? = some 'C' from rfl,
          Option.some.injEq] at hc
        subst hc; rfl
      · intro c hc
        rw [String.data_append, List.getLast?_append_of_ne_nil _ hbody] at hc
        exact hlast c hc
    unfold strip_capitulo_prefix
    rw [if_neg hne, hstrip, String.data_append]
    unfold stripCore
    have hlow : pyLower ("Capítulo 7: ".data ++ body.data) =
        "capítulo 7: ".data ++ pyLower body.data := rfl
    have hcond : ("capítulo ".data.isPrefixOf (pyLower ("Capítulo 7: ".data ++ body.data)) ||
        "capitulo ".data.isPrefixOf (pyLower ("Capítulo 7: ".data ++ body.data))) = true := by
      rw [hlow]; simp [List.isPrefixOf]
    rw [if_pos hcond]
    have hsplit : splitFirst ':' ("Capítulo 7: ".data ++ body.data) =
        some ("Capítulo 7".data, ' ' :: body.data) := by
      simp [splitFirst]
    have hleft : capituloLeft "Capítulo 7".data = true := by decide
    have htry : trySeps [':', '-', '–', '—'] ("Capítulo 7: ".data ++ body.data) =
        some (pyStripList (' ' :: body.data)) := by
      simp only [trySeps, trySep, hsplit, hleft, if_true]
    rw [htry, pyStripList_space_cons body.data (fun c hc => (h c hc).1)]
  · have hne : ("CAPITULO " ++ body) ≠ "" := by
      intro hcon
      have hd := congrArg String.data hcon
      rw [String.data_append] at hd
      exact List.cons_ne_nil _ _ hd
    have hstrip : pyStripList (("CAPITULO " ++ body)).data = ("CAPITULO " ++ body).data := by
      apply pyStripList_eq_self
      · intro c hc
        rw [String.data_append,
          show ("CAPITULO ".data ++ body.data).head? = some 'C' from rfl,
          Option.some.injEq] at hc
        subst hc; rfl
      · intro c hc
        rw [String.data_append, List.getLast?_append_of_ne_nil _ hbody] at hc
        exact hlast c hc
    have hall : ∀ c ∈ "CAPITULO ".data ++ body.data,
        c ≠ ':' ∧ c ≠ '-' ∧ c ≠ '–' ∧ c ≠ '—' := by
      intro c hc
      rcases List.mem_append.mp hc with hc | hc
      · have hmem : c ∈ ['C', 'A', 'P', 'I', 'T', 'U', 'L', 'O', ' '] := hc
        fin_cases hmem <;> exact ⟨by decide, by decide, by decide, by decide⟩
      · exact (h c hc).2
    have hs1 : splitFirst ':' ("CAPITULO ".data ++ body.data) = none :=
      splitFirst_none_of_forall _ _ (fun c hc => (hall c hc).1)
    have hs2 : splitFirst '-' ("CAPITULO ".data ++ body.data) = none :=
      splitFirst_none_of_forall _ _ (fun c hc => (hall c hc).2.1)
    have hs3 : splitFirst '–' ("CAPITULO ".data ++ body.data) = none :=
      splitFirst_none_of_forall _ _ (fun c hc => (hall c hc).2.2.1)
    have hs4 : splitFirst '—' ("CAPITULO ".data ++ body.data) = none :=
      splitFirst_none_of_forall _ _ (fun c hc => (hall c hc).2.2.2)
    have htry : trySeps [':', '-', '–', '—'] ("CAPITULO ".data ++ body.data) = none := by
      simp only [trySeps, trySep, hs1, hs2, hs3, hs4]
    unfold strip_capitulo_prefix
    rw [if_neg hne, hstrip, String.data_append]
    unfold stripCore
    have hlow : pyLower ("CAPITULO ".data ++ body.data) =
        "capitulo ".data ++ pyLower body.data := rfl
    have hcond : ("capítulo ".data.isPrefixOf (pyLower ("CAPITULO ".data ++ body.data)) ||
        "capitulo ".data.isPrefixOf (pyLower ("CAPITULO ".data ++ body.data))) = true := by
      rw [hlow]; simp [List.isPrefixOf]
    rw [if_pos hcond, htry]
    have hsp : splitFirst ' ' ("CAPITULO ".data ++ body.data) =
        some ("CAPITULO".data, body.data) := by
      simp [splitFirst]
    rw [hsp]
    show (⟨pyStripList body.data⟩ : String) = body
    rw [pyStripList_all_nonspace body.data (fun c hc => (h c hc).1)]
  · have hne : ("Capítulo: " ++ body) ≠ "" := by
      intro hcon
      have hd := congrArg String.data hcon
      rw [String.data_append] at hd
      exact List.cons_ne_nil _ _ hd
    have hstrip : pyStripList (("Capítulo: " ++ body)).data = ("Capítulo: " ++ body).data := by
      apply pyStripList_eq_self
      · intro c hc
        rw [String.data_append,
          show ("Capítulo: ".data ++ body.data).head? = some 'C' from rfl,
          Option.some.injEq] at hc
        subst hc; rfl
      · intro c hc
        rw [String.data_append, List.getLast?_append_of_ne_nil _ hbody] at hc
        exact hlast c hc
    unfold strip_capitulo_prefix
    rw [if_neg hne, hstrip, String.data_append]
    unfold stripCore
    have hlow : pyLower ("Capítulo: ".data ++ body.data) =
        "capítulo: ".data ++ pyLower body.data := rfl
    have hcond : ("capítulo ".data.isPrefixOf (pyLower ("Capítulo: ".data ++ body.data)) ||
        "capitulo ".data.isPrefixOf (pyLower ("Capítulo: ".data ++ body.data))) = false := by
      rw [hlow]; simp [List.isPrefixOf]
    rw [hcond]
    simp only [Bool.false_eq_true, if_false]
    apply String.ext
    rw [String.data_append]

end EbookPdf

namespace EbookPdf

/-- C6 (counterexample): with secret "X", the header "Bearer Bearer X"
carries the bearer token "Bearer X", which mismatches the secret, yet the
request is accepted instead of rejected with 403 — because the check deletes
every occurrence of "Bearer " before comparing. -/
theorem C6_mismatched_token_accepted :
    "Bearer Bearer X" = "Bearer " ++ "Bearer X" ∧ "Bearer X" ≠ "X" ∧
    checkAuth "X" "Bearer Bearer X" = AuthResult.ok ∧
    checkAuth "X" "Bearer Bearer X" ≠ AuthResult.forbidden403 := by
  decide

/-- C6 (amended): with no secret configured every request passes unchecked;
with a secret, a header that does not start with "Bearer " (the absent
header included) gets 401; the exact header "Bearer " + secret succeeds
whenever the secret itself contains no "Bearer " and no surrounding
whitespace; and a header that does start with "Bearer " gets 403 exactly
when deleting every "Bearer " occurrence and trimming does not reproduce
the secret — not when the header's literal token mismatches. -/
theorem C6_auth_behavior :
    (∀ hdr : String, checkAuth "" hdr = AuthResult.ok) ∧
    (∀ key hdr : String, key ≠ "" → pyStartsWith hdr "Bearer " = false →
        checkAuth key hdr = AuthResult.unauthorized401) ∧
    (∀ key : String, key ≠ "" → removeBearer key.data = key.data →
        pyStripList key.data = key.data →
        checkAuth key ("Bearer " ++ key) = AuthResult.ok) ∧
    (∀ key hdr : String, key ≠ "" → pyStartsWith hdr "Bearer " = true →
        (checkAuth key hdr = AuthResult.forbidden403 ↔
          pyStrip ⟨removeBearer hdr.data⟩ ≠ key)) := by
  refine ⟨fun hdr => rfl, fun key hdr hk hs => ?_, fun key hk hrb hstrip => ?_,
    fun key hdr hk hs => ?_⟩
  · simp [checkAuth, hk, hs]
  · have hsw : pyStartsWith ("Bearer " ++ key) "Bearer " = true := startsWith_append_self _ _
    have htok : pyStrip ⟨removeBearer ('B' :: 'e' :: 'a' :: 'r' :: 'e' :: 'r' :: ' ' :: key.data)⟩ = key := by
      rw [removeBearer, hrb]
      unfold pyStrip
      rw [show (⟨key.data⟩ : String).data = key.data from rfl, hstrip]
    simp [checkAuth, hk, hsw, htok]
  · by_cases ht : pyStrip ⟨removeBearer hdr.data⟩ = key <;> simp [checkAuth, hk, hs, ht]

/-- C7: escaping a chapter body with `safe_text_to_paragraph_html` and then
reading the result back as paragraph markup (`renderChars`) reproduces the
raw text exactly: `&`, `<`, `>` reach the page as literal characters, never
as markup, and the newlines of the raw content are the only line breaks the
markup carries. -/
theorem C7_escaped_body_renders_literally (text : String) :
    renderChars (safe_text_to_paragraph_html text).data = text.data := by
  show renderChars (safeChars text.data) = text.data
  exact renderChars_safeChars text.data

/-- C8: the header/footer overlay that `add_header_footer` would draw has the
truncation the claim describes — the stripped title cut at 70 characters with
an ellipsis appended, shorter titles kept whole — but the page caption is the
literal "Página {n}", not "Page {n}"; and the overlay is never drawn at all,
because `doc.build(elements, onLaterPages=...)` passes a keyword that
`BaseDocTemplate.build` does not accept. -/
theorem C8_overlay_content :
    footerCaption 3 = "Página 3" ∧ footerCaption 3 ≠ "Page 3" ∧
    headerTitle ⟨List.replicate 71 'a'⟩ = ⟨List.replicate 70 'a'⟩ ++ "…" ∧
    headerTitle "Short title" = "Short title" := by
  decide

/-- C9 (counterexample): for the one-chapter request with title "T", the
cover's page break sits at index 5, but the next elements are the "Sumário"
header paragraph and a spacer — the `TableOfContents` placeholder only comes
at index 8, so it is not immediately after the cover, and the element
before it is a spacer, not a page break; likewise the chapter heading at
index 10 is followed by a spacer at index 11, not by the body. -/
theorem C9_toc_not_immediately_after_cover :
    (buildElements ⟨"T", none, none, some "A4", [⟨"A", "x"⟩]⟩)[5]? = some Flowable.pageBreak ∧
    (buildElements ⟨"T", none, none, some "A4", [⟨"A", "x"⟩]⟩)[6]? =
      some (Flowable.paragraph "Sumário" "TOCHeader") ∧
    (buildElements ⟨"T", none, none, some "A4", [⟨"A", "x"⟩]⟩)[7]? = some (Flowable.spacer 4) ∧
    (buildElements ⟨"T", none, none, some "A4", [⟨"A", "x"⟩]⟩)[8]? = some Flowable.tableOfContents ∧
    Flowable.spacer 4 ≠ Flowable.pageBreak ∧
    (buildElements ⟨"T", none, none, some "A4", [⟨"A", "x"⟩]⟩)[10]? =
      some (Flowable.tocHeadingPara "Capítulo 1: A" "Capítulo 1: A" 0 "ch_1" "ChapterTitle") ∧
    (buildElements ⟨"T", none, none, some "A4", [⟨"A", "x"⟩]⟩)[11]? = some (Flowable.spacer 3) ∧
    (buildElements ⟨"T", none, none, some "A4", [⟨"A", "x"⟩]⟩)[12]? =
      some (Flowable.paragraph "x" "BodyTextPremium") ∧
    Flowable.spacer 3 ≠ Flowable.paragraph "x" "BodyTextPremium" := by
  decide

/-- C9 (amended): the element stream is the cover — which contains no
heading anchor and no TOC placeholder and ends with an unconditional page
break — then a "Sumário" header paragraph and a spacer, then the TOC
placeholder followed by an unconditional page break, then for each chapter
in submission order its heading anchor (level 0, key "ch_<i>"), a spacer,
the escaped body and an unconditional page break; consequently every
chapter heading is immediately preceded by a page break, so every chapter
starts on a fresh page. -/
theorem C9_stream_structure (p : EbookRequest) :
    (∃ cover : List Flowable,
      buildElements p =
        cover ++
          [Flowable.paragraph "Sumário" "TOCHeader", Flowable.spacer 4,
            Flowable.tableOfContents, Flowable.pageBreak] ++
          (List.enumFrom 1 p.chapters).flatMap (fun ic => chapterBlock ic.1 ic.2) ∧
      cover.getLast? = some Flowable.pageBreak ∧
      ∀ f ∈ cover, isChapterHeading f = false ∧ f ≠ Flowable.tableOfContents) ∧
    (∀ (i : Nat) (ch : Chapter), p.chapters[i]? = some ch →
      ∃ n : Nat,
        (buildElements p)[n]? = some Flowable.pageBreak ∧
        (buildElements p)[n + 1]? =
          some (Flowable.tocHeadingPara (chapterHeadingText (i + 1) ch)
            (chapterHeadingText (i + 1) ch) 0 ("ch_" ++ toString (i + 1)) "ChapterTitle")) := by
  constructor
  · exact ⟨coverBlock p, rfl, coverBlock_getLast p, fun f hf => coverBlock_no_heading p f hf⟩
  · intro i ch h
    have hassoc :
        buildElements p =
          (coverBlock p ++ tocBlock) ++
            (List.enumFrom 1 p.chapters).flatMap (fun ic => chapterBlock ic.1 ic.2) := by
      unfold buildElements
      rw [List.append_assoc]
    have hget := chapters_getElem p.chapters 1 i ch h
    have hA : (coverBlock p ++ tocBlock).length = (coverBlock p).length + 4 := by
      rw [List.length_append]; rfl
    cases i with
    | zero =>
      refine ⟨(coverBlock p).length + 3, ?_, ?_⟩
      · rw [hassoc, List.getElem?_append_left (by omega)]
        rw [List.getElem?_append_right
          (by omega : (coverBlock p).length ≤ (coverBlock p).length + 3)]
        simp [tocBlock]
      · rw [hassoc, List.getElem?_append_right (by rw [hA])]
        rw [hA,
          show (coverBlock p).length + 3 + 1 - ((coverBlock p).length + 4) = 4 * 0 from by omega]
        exact hget.1
    | succ j =>
      rcases List.getElem?_eq_some_iff.mp h with ⟨hlt, _⟩
      have hj : j < p.chapters.length := by omega
      have h2 : p.chapters[j]? = some (p.chapters[j]) := List.getElem?_eq_getElem hj
      have hgetj := chapters_getElem p.chapters 1 j _ h2
      refine ⟨(coverBlock p).length + 4 + (4 * j + 3), ?_, ?_⟩
      · rw [hassoc, List.getElem?_append_right (by rw [hA]; omega)]
        rw [hA,
          show (coverBlock p).length + 4 + (4 * j + 3) - ((coverBlock p).length + 4) =
            4 * j + 3 from by omega]
        exact hgetj.2
      · rw [hassoc, List.getElem?_append_right (by rw [hA]; omega)]
        rw [hA,
          show (coverBlock p).length + 4 + (4 * j + 3) + 1 - ((coverBlock p).length + 4) =
            4 * (j + 1) from by omega]
        rw [show (1 : Nat) + (j + 1) = j + 1 + 1 from by omega] at hget
        exact hget.1

/-- C10: with a secret configured, a request is accepted exactly when the
Authorization header starts with "Bearer " and deleting every occurrence of
"Bearer " from the whole header and stripping surrounding whitespace yields
the secret; hence headers that are not exactly "Bearer " + secret — a
doubled "Bearer Bearer X" or a token padded with extra whitespace — are
nevertheless accepted. -/
theorem C10_bearer_delete_rule :
    (∀ key hdr : String, key ≠ "" →
        (checkAuth key hdr = AuthResult.ok ↔
          (pyStartsWith hdr "Bearer " = true ∧ pyStrip ⟨removeBearer hdr.data⟩ = key))) ∧
    checkAuth "X" "Bearer Bearer X" = AuthResult.ok ∧
    checkAuth "X" "Bearer  X " = AuthResult.ok := by
  refine ⟨fun key hdr hk => ?_, by decide, by decide⟩
  unfold checkAuth
  by_cases hs : pyStartsWith hdr "Bearer " = true
  · by_cases ht : pyStrip ⟨removeBearer hdr.data⟩ = key <;> simp [hk, hs, ht]
  · simp [hk, Bool.eq_false_iff.mpr hs, hs]

end EbookPdf
